import Mathlib

/-!
Verification of the `mygrate` change-data-capture agent.

The development shallowly embeds the parts of the source reachable from the
claims under scrutiny:

* `src/mygrate/binlog.py` — the binlog query parser (`QueryBase`,
  `InsertQuery`, `UpdateQuery`, `DeleteQuery`, `QueryParser`), the follower
  loop of `BinlogParser.process_binlog`, and `BinlogParser.read_position`;
* `src/mygrate/callbacks.py` — `MygrateCallbacks.execute` and the default
  error handler;
* `src/mygrate/config.py` — the configuration getters.

Python strings are modelled as `List Char`; Python dicts as association
lists with overwrite-on-insert; exceptions as `Except` values.  The code is
Python 2, so a plain string literal is a byte string (`PyVal.vbytes`) and
`.decode(charset)` produces a unicode string (`PyVal.vunicode`).
-/

/-- Python strings are modelled as lists of characters. -/
abbrev Str := List Char

deriving instance DecidableEq for Except

/-- The backquote character, used by table-name normalization. -/
def backquote : Char := Char.ofNat 96

/-- Characters stripped by Python's argumentless `str.rstrip()`. -/
def pyIsSpaceChar (c : Char) : Bool :=
  c == ' ' || c == '\t' || c == '\n' || c == '\r' ||
    c == Char.ofNat 11 || c == Char.ofNat 12

/-- Python `s.rstrip()`: remove trailing whitespace characters. -/
def pyRstrip (s : Str) : Str :=
  (s.reverse.dropWhile pyIsSpaceChar).reverse

/-- Python `s.rstrip('\r\n')`: remove trailing carriage returns and newlines. -/
def rstripCRLF (s : Str) : Str :=
  (s.reverse.dropWhile (fun c => c == '\r' || c == '\n')).reverse

/-- Python `s.strip(c)` for a single strip character: remove every leading and
trailing occurrence of `c`. -/
def stripChar (c : Char) (s : Str) : Str :=
  ((s.dropWhile (· = c)).reverse.dropWhile (· = c)).reverse

/-- Python `s.partition(c)` for a one-character separator: returns the part
before the first occurrence, whether the separator was found, and the part
after it. -/
def pyPartition : Str → Char → Str × Bool × Str
  | [], _ => ([], false, [])
  | a :: rest, c =>
      if a = c then ([], true, rest)
      else
        let p := pyPartition rest c
        (a :: p.1, p.2.1, p.2.2)

/-- Association-list lookup, modelling a Python dict read `d[k]` / `d.get(k)`. -/
def alistGet {α : Type} (k : Str) : List (Str × α) → Option α
  | [] => none
  | (k0, v) :: rest => if k0 = k then some v else alistGet k rest

/-- Values produced by decoding one binlog column token (the subset of Python
values `ast.literal_eval` can return on decoder output).  Floating-point
literals are carried symbolically as their source text. -/
inductive PyVal where
  | vint (n : Int)
  | vfloat (text : Str)
  | vbytes (s : Str)
  | vunicode (s : Str)
  | vnone
deriving DecidableEq, Repr

/-- Numeric value of a digit string. -/
def digitsToNat (ds : Str) : Nat :=
  ds.foldl (fun n c => n * 10 + (c.toNat - 48)) 0

/-- Decimal integer digits accepted by the modelled literal decoder: nonempty,
all digits, and no leading zero (a leading zero is an octal literal in
Python 2 and is outside the model, decoding as failure). -/
def decDigits? (s : Str) : Option Nat :=
  if s ≠ [] ∧ s.all Char.isDigit ∧ (s.head? = some '0' → s = ['0']) then
    some (digitsToNat s)
  else none

/-- Integer literals, optionally negated. -/
def intLit? (s : Str) : Option Int :=
  match s with
  | '-' :: rest => (decDigits? rest).map (fun n => -(n : Int))
  | _ => (decDigits? s).map (fun n => (n : Int))

/-- Digit shape of an unsigned float literal: `<digits>.<digits>` with at
least one digit overall. -/
def floatDigitsOk (s : Str) : Bool :=
  match s.splitOn '.' with
  | [ip, fp] => (ip.all Char.isDigit && fp.all Char.isDigit) &&
      !(ip.isEmpty && fp.isEmpty)
  | _ => false

/-- Float literals, optionally negated, carried as raw text. -/
def floatLit? (s : Str) : Option PyVal :=
  match s with
  | '-' :: rest => if floatDigitsOk rest then some (PyVal.vfloat s) else none
  | _ => if floatDigitsOk s then some (PyVal.vfloat s) else none

/-- Single-quoted byte-string literals without escapes or embedded quotes. -/
def strLit? (s : Str) : Option PyVal :=
  match s with
  | '\'' :: rest =>
      if rest.getLast? = some '\'' then
        let body := rest.dropLast
        if body.all (fun c => !(c == '\'') && !(c == '\\')) then
          some (PyVal.vbytes body)
        else none
      else none
  | _ => none

/-- Modelled from the Python standard library `ast.literal_eval` (external to
this repository), restricted to the literal forms the binlog decoder emits:
`None`, decimal integers, simple floats, and single-quoted escape-free byte
strings.  Other Python literal forms (octal, booleans, tuples, escaped
strings, …) are outside the model and decode as failure, exactly as a
non-literal token does. -/
def literal_eval (s : Str) : Option PyVal :=
  if s = "None".data then some PyVal.vnone
  else
    match intLit? s with
    | some n => some (PyVal.vint n)
    | none =>
        match floatLit? s with
        | some v => some v
        | none => strLit? s

/-- Modelled from the Python standard library codecs (external to this
repository): Python 2 `str.decode(charset)` turns a byte string into a
unicode text string.  The per-charset code-point mapping is external and is
modelled as the identity on code points. -/
def pyDecode (char_set : Str) (b : Str) : PyVal :=
  PyVal.vunicode b

/-- Python truthiness of the optional charset (`if char_set`): present and
nonempty. -/
def charSetTruthy : Option Str → Bool
  | none => false
  | some s => !s.isEmpty

/-- The `else` branch of `QueryBase._parse_value` (binlog.py lines 59-63):
`if char_set and isinstance(literal, str): return literal.decode(char_set)
else: return literal`. -/
def applyCharset (char_set : Option Str) (literal : PyVal) : PyVal :=
  match literal with
  | PyVal.vbytes b =>
      if charSetTruthy char_set then pyDecode (char_set.getD []) b
      else PyVal.vbytes b
  | l => l

/-- Recursion kernel for `QueryBase._parse_value` (binlog.py lines 52-64).
The fuel argument makes the source's recursion structural; the recursive call
is on the prefix of the first space, which is strictly shorter, so the fuel
`value.length + 1` supplied by `QueryBase.parse_value` is never exhausted
(see `parse_value_recursion`). -/
def parse_value_rec : Nat → Str → Option Str → PyVal
  | 0, _, _ => PyVal.vnone
  | fuel + 1, value, char_set =>
      match literal_eval value with
      | some literal => applyCharset char_set literal
      | none =>
          let p := pyPartition value ' '
          if p.2.1 then parse_value_rec fuel p.1 char_set
          else PyVal.vnone

/-- `QueryBase._parse_value(value, char_set)`: try a literal decode; on
success, bytes are decoded through the charset when one is present; on
failure, retry on the prefix of the first space when there is one, and
otherwise return `None`. -/
def QueryBase.parse_value (value : Str) (char_set : Option Str) : PyVal :=
  parse_value_rec (value.length + 1) value char_set

/-- The three query classes of binlog.py. -/
inductive QType where
  | INSERT
  | UPDATE
  | DELETE
deriving DecidableEq, Repr

/-- The two keys of the `values` dict of `QueryBase` (the two phases `WHERE`
and `SET`). -/
inductive Phase where
  | WHERE
  | SET
deriving DecidableEq, Repr

/-- The mutable state of a `QueryBase` instance: its class (`qtype`), the
normalized table name (or `None`), the `invalid` flag, the
`current_value_type` phase pointer (initially `None`), and the two positional
value lists of the `values` dict. -/
structure QueryState where
  qtype : QType
  table : Option Str
  invalid : Bool
  current_value_type : Option Phase
  whereVals : List PyVal
  setVals : List PyVal
deriving DecidableEq, Repr

/-- Exceptions the embedded code can raise. -/
inductive PyErr where
  | keyError
  | indexError
  | ioError (errno : Nat)
  | configError (msg : Str)
deriving DecidableEq, Repr

/-- Table-name normalization of `QueryBase._parse_initial_line` (binlog.py
lines 49-50): split the capture on dots, strip backquotes from each segment,
and join with dots. -/
def normalize_table (cap : Str) : Str :=
  List.intercalate ['.'] ((cap.splitOn '.').map (stripChar backquote))

/-- Strip an optional final newline, as `$` in a Python regex matches at the
end of the string or just before a trailing newline. -/
def dropFinalNL (s : Str) : Str :=
  if s.getLast? = some '\n' then s.dropLast else s

/-- Capture group of `re.match(r'^PRE(.*)$', line)` for a literal pattern
PRE: the line (up to an optional final newline) must be newline-free and
start with PRE; the capture is the rest. -/
def matchDotStarEnd (pre : Str) (line : Str) : Option Str :=
  let core := dropFinalNL line
  if core.contains '\n' then none
  else if pre.isPrefixOf core then some (core.drop pre.length)
  else none

/-- Groups of `QueryBase._column_pattern` (binlog.py line 31), the regex
`^  @(\d+)=(.*)$`: the digit string of the column index and the value text. -/
def QueryBase.column_pattern_match (line : Str) : Option (Str × Str) :=
  let core := dropFinalNL line
  if core.contains '\n' then none
  else
    match core with
    | ' ' :: ' ' :: '@' :: rest =>
        let ds := rest.takeWhile Char.isDigit
        let rest2 := rest.dropWhile Char.isDigit
        if ds.isEmpty then none
        else
          match rest2 with
          | '=' :: v => some (ds, v)
          | _ => none
    | _ => none

/-- `QueryBase.__init__` followed by `_parse_initial_line`: a failed match of
the class's initial pattern marks the query invalid with no table; a match
stores the normalized table.  `current_value_type` starts as `None` and both
positional lists start empty. -/
def QueryBase.init (qtype : QType) (initial_capture : Option Str) : QueryState :=
  match initial_capture with
  | none =>
      { qtype := qtype, table := none, invalid := true,
        current_value_type := none, whereVals := [], setVals := [] }
  | some cap =>
      { qtype := qtype, table := some (normalize_table cap), invalid := false,
        current_value_type := none, whereVals := [], setVals := [] }

/-- `InsertQuery(line, …)`: initial pattern `^INSERT INTO (.*)$`. -/
def InsertQuery.init (line : Str) : QueryState :=
  QueryBase.init QType.INSERT (matchDotStarEnd "INSERT INTO ".data line)

/-- `UpdateQuery(line, …)`: initial pattern `^UPDATE (.*)$`. -/
def UpdateQuery.init (line : Str) : QueryState :=
  QueryBase.init QType.UPDATE (matchDotStarEnd "UPDATE ".data line)

/-- `DeleteQuery(line, …)`: initial pattern `^DELETE FROM (.*)$`. -/
def DeleteQuery.init (line : Str) : QueryState :=
  QueryBase.init QType.DELETE (matchDotStarEnd "DELETE FROM ".data line)

/-- The `char_sets` dict: table name to optional charset name. -/
abbrev CharSets := List (Str × Option Str)

/-- `self.char_sets.get(self.table)`: `None` when the table is `None`, absent,
or stored with a `None` charset. -/
def charSetsGet (cs : CharSets) (t : Option Str) : Option Str :=
  match t with
  | none => none
  | some tb =>
      match alistGet tb cs with
      | some v => v
      | none => none

/-- `self.values[self.current_value_type].append(col_value)` for a known
phase: append to the positional list of that phase. -/
def QueryState.appendValue (q : QueryState) (ph : Phase) (v : PyVal) : QueryState :=
  match ph with
  | Phase.WHERE => { q with whereVals := q.whereVals ++ [v] }
  | Phase.SET => { q with setVals := q.setVals ++ [v] }

/-- `QueryBase.parse(line)` (binlog.py lines 66-83): `SET` / `WHERE` switch
the phase; a non-matching line marks the query invalid; a column line decodes
its value and appends it to the current phase's list, raising `KeyError` when
`current_value_type` is still `None` (`values[None]`). -/
def QueryBase.parse (char_sets : CharSets) (q : QueryState) (line : Str) :
    Except PyErr QueryState :=
  if line = "SET".data then
    Except.ok { q with current_value_type := some Phase.SET }
  else if line = "WHERE".data then
    Except.ok { q with current_value_type := some Phase.WHERE }
  else
    match QueryBase.column_pattern_match line with
    | none => Except.ok { q with invalid := true }
    | some (_idx, valstr) =>
        let char_set := charSetsGet char_sets q.table
        let col_value := QueryBase.parse_value valstr char_set
        match q.current_value_type with
        | none => Except.error PyErr.keyError
        | some ph => Except.ok (q.appendValue ph col_value)

/-- A Python dict of column name to value, as an association list with
overwrite-on-insert (`dictSet`). -/
abbrev Dict := List (Str × PyVal)

/-- Python dict assignment `d[k] = v`: overwrite an existing binding for `k`
or append a new one. -/
def dictSet (d : Dict) (k : Str) (v : PyVal) : Dict :=
  match d with
  | [] => [(k, v)]
  | (k0, v0) :: rest =>
      if k0 = k then (k, v) :: rest else (k0, v0) :: dictSet rest k v

/-- Key membership in a dict. -/
def hasKey (d : Dict) (k : Str) : Bool :=
  (alistGet k d).isSome

/-- The `column_names` dict: table name to its column-name vector. -/
abbrev ColumnNames := List (Str × List Str)

/-- The translation loop shared by the `finish` methods (binlog.py lines
104-107, 123-130, 146-149): `for i, val in enumerate(vals): key = cols[i];
d[key] = val`, raising `IndexError` when `i` runs past the column vector. -/
def translate_values (cols : List Str) : Nat → List PyVal → Dict →
    Except PyErr Dict
  | _, [], acc => Except.ok acc
  | i, v :: rest, acc =>
      match cols[i]? with
      | none => Except.error PyErr.indexError
      | some key => translate_values cols (i + 1) rest (dictSet acc key v)

/-- An event handed to the task sink, mirroring the three task signatures of
tasks.py: `INSERT(table, cols)`, `UPDATE(table, from_cols, to_cols)`,
`DELETE(table, cols)`. -/
inductive Event where
  | INSERT (table : Str) (cols : Dict)
  | UPDATE (table : Str) (from_cols : Dict) (to_cols : Dict)
  | DELETE (table : Str) (cols : Dict)
deriving DecidableEq, Repr

/-- `column_names[table]` with a `None`-or-missing table raising `KeyError`. -/
def columnNamesGet (cn : ColumnNames) (t : Option Str) :
    Except PyErr (Str × List Str) :=
  match t with
  | none => Except.error PyErr.keyError
  | some tb =>
      match alistGet tb cn with
      | none => Except.error PyErr.keyError
      | some cols => Except.ok (tb, cols)

/-- `InsertQuery.finish` (binlog.py lines 97-109): translate the `SET` list
and emit `INSERT(table, set_vals)`. -/
def InsertQuery.finish (column_names : ColumnNames) (q : QueryState) :
    Except PyErr Event :=
  match columnNamesGet column_names q.table with
  | Except.error e => Except.error e
  | Except.ok (t, cols) =>
      match translate_values cols 0 q.setVals [] with
      | Except.error e => Except.error e
      | Except.ok set_vals => Except.ok (Event.INSERT t set_vals)

/-- `UpdateQuery.finish` (binlog.py lines 116-132): translate the `WHERE`
list, then the `SET` list, and emit `UPDATE(table, where_vals, set_vals)`. -/
def UpdateQuery.finish (column_names : ColumnNames) (q : QueryState) :
    Except PyErr Event :=
  match columnNamesGet column_names q.table with
  | Except.error e => Except.error e
  | Except.ok (t, cols) =>
      match translate_values cols 0 q.whereVals [] with
      | Except.error e => Except.error e
      | Except.ok where_vals =>
          match translate_values cols 0 q.setVals [] with
          | Except.error e => Except.error e
          | Except.ok set_vals =>
              Except.ok (Event.UPDATE t where_vals set_vals)

/-- `DeleteQuery.finish` (binlog.py lines 139-151): translate the `WHERE`
list and emit `DELETE(table, where_vals)`. -/
def DeleteQuery.finish (column_names : ColumnNames) (q : QueryState) :
    Except PyErr Event :=
  match columnNamesGet column_names q.table with
  | Except.error e => Except.error e
  | Except.ok (t, cols) =>
      match translate_values cols 0 q.whereVals [] with
      | Except.error e => Except.error e
      | Except.ok where_vals => Except.ok (Event.DELETE t where_vals)

/-- Dynamic dispatch of `self.current.finish()` by the query's class. -/
def QueryBase.finish (column_names : ColumnNames) (q : QueryState) :
    Except PyErr Event :=
  match q.qtype with
  | QType.INSERT => InsertQuery.finish column_names q
  | QType.UPDATE => UpdateQuery.finish column_names q
  | QType.DELETE => DeleteQuery.finish column_names q

/-- The immutable inputs of a `QueryParser`: the registered table names (the
keys of the callbacks dict), the column-name vectors, and the charsets. -/
structure ParserEnv where
  callbacks : List Str
  column_names : ColumnNames
  char_sets : CharSets
deriving DecidableEq, Repr

/-- `query.table in self.callbacks`: a `None` table is never registered. -/
def tableTracked (t : Option Str) (callbacks : List Str) : Bool :=
  match t with
  | none => false
  | some tb => callbacks.contains tb

/-- The mutable state of a `QueryParser`: the current query, if any. -/
structure ParserState where
  current : Option QueryState
deriving DecidableEq, Repr

/-- `QueryParser._handle_completion` (binlog.py lines 200-202): finish and
emit the current query when there is one.  Returns the emitted events. -/
def QueryParser.handle_completion (env : ParserEnv) (s : ParserState) :
    Except PyErr (List Event) :=
  match s.current with
  | none => Except.ok []
  | some q =>
      match QueryBase.finish env.column_names q with
      | Except.error e => Except.error e
      | Except.ok ev => Except.ok [ev]

/-- `QueryParser.parse(line)` (binlog.py lines 167-190): a line starting with
`INSERT`, `UPDATE` or `DELETE` completes the current query and starts a new
one, which is kept only when its table is registered; any other line is fed
to the current query when there is one, and ignored otherwise.  Returns the
new state and the events emitted by the completion. -/
def QueryParser.parse (env : ParserEnv) (s : ParserState) (line : Str) :
    Except PyErr (ParserState × List Event) :=
  if "INSERT".data.isPrefixOf line then
    match QueryParser.handle_completion env s with
    | Except.error e => Except.error e
    | Except.ok evs =>
        let query := InsertQuery.init line
        Except.ok (⟨if tableTracked query.table env.callbacks then some query
          else none⟩, evs)
  else if "UPDATE".data.isPrefixOf line then
    match QueryParser.handle_completion env s with
    | Except.error e => Except.error e
    | Except.ok evs =>
        let query := UpdateQuery.init line
        Except.ok (⟨if tableTracked query.table env.callbacks then some query
          else none⟩, evs)
  else if "DELETE".data.isPrefixOf line then
    match QueryParser.handle_completion env s with
    | Except.error e => Except.error e
    | Except.ok evs =>
        let query := DeleteQuery.init line
        Except.ok (⟨if tableTracked query.table env.callbacks then some query
          else none⟩, evs)
  else
    match s.current with
    | some q =>
        match QueryBase.parse env.char_sets q line with
        | Except.error e => Except.error e
        | Except.ok q2 => Except.ok (⟨some q2⟩, [])
    | none => Except.ok (s, [])

/-- `QueryParser.finish()` (binlog.py lines 192-198): complete and emit the
current query, then clear it. -/
def QueryParser.finish (env : ParserEnv) (s : ParserState) :
    Except PyErr (ParserState × List Event) :=
  match QueryParser.handle_completion env s with
  | Except.error e => Except.error e
  | Except.ok evs => Except.ok (⟨none⟩, evs)

/-- Harness: feed a list of lines to a `QueryParser` in order, collecting the
emitted events; an exception aborts the run as it does in
`BinlogParser.process_binlog`. -/
def QueryParser.feedList (env : ParserEnv) :
    ParserState → List Str → Except PyErr (ParserState × List Event)
  | s, [] => Except.ok (s, [])
  | s, l :: rest =>
      match QueryParser.parse env s l with
      | Except.error e => Except.error e
      | Except.ok (s2, evs) =>
          match QueryParser.feedList env s2 rest with
          | Except.error e => Except.error e
          | Except.ok (s3, evs2) => Except.ok (s3, evs ++ evs2)

/-- Harness: run a fresh `QueryParser` over a fed line sequence and then call
`finish()`, as `BinlogParser.process_binlog` does on a clean end of stream,
returning every event emitted to the sink. -/
def QueryParser.run (env : ParserEnv) (lines : List Str) :
    Except PyErr (List Event) :=
  match QueryParser.feedList env ⟨none⟩ lines with
  | Except.error e => Except.error e
  | Except.ok (s, evs) =>
      match QueryParser.finish env s with
      | Except.error e => Except.error e
      | Except.ok (_, evs2) => Except.ok (evs ++ evs2)

/-- Observable outcome of the streaming loop of
`BinlogParser.process_binlog` (binlog.py lines 362-372) over one journal:
how many times `parser.finish()` was called, the events emitted to the sink,
the positions written to the cursor file (in order), whether the shutdown
flag was observed (loop `break`), whether an exception escaped the loop body,
and whether end of stream was reached cleanly (the `for` loop exhausted its
input, so its `else` clause runs). -/
structure StreamOutcome where
  finishCalls : Nat
  events : List Event
  positions : List Str
  sawShutdown : Bool
  loopError : Bool
  reachedEOS : Bool
deriving DecidableEq, Repr

/-- The streaming loop of `BinlogParser.process_binlog` (binlog.py lines
362-372).  The input is the decoded line sequence paired with the value of
the shutdown flag `self.done` read at each iteration (the flag is flipped
asynchronously by a signal handler).  A line is read, then the flag is
checked: `break` when set.  `### ` lines are fed to the query parser after
prefix stripping and `rstrip('\r\n')`; `# at ` lines write the position;
other lines are ignored.  When the loop exhausts the stream its `else`
clause calls `parser.finish()`; an exception from the body (or from
`finish()`) is caught and logged by the surrounding `except` block. -/
def BinlogParser.process_lines (env : ParserEnv) :
    ParserState → List (Bool × Str) → StreamOutcome
  | s, [] =>
      match QueryParser.finish env s with
      | Except.ok (_, evs) => ⟨1, evs, [], false, false, true⟩
      | Except.error _ => ⟨1, [], [], false, false, true⟩
  | s, (done, line) :: rest =>
      if done then ⟨0, [], [], true, false, false⟩
      else if "### ".data.isPrefixOf line then
        match QueryParser.parse env s (rstripCRLF (line.drop 4)) with
        | Except.ok (s2, evs) =>
            let o := BinlogParser.process_lines env s2 rest
            { o with events := evs ++ o.events }
        | Except.error _ => ⟨0, [], [], false, true, false⟩
      else if "# at ".data.isPrefixOf line then
        let o := BinlogParser.process_lines env s rest
        { o with positions := pyRstrip (line.drop 5) :: o.positions }
      else BinlogParser.process_lines env s rest

/-- Outcome of the attempt to open and read a cursor file: its contents, or
an `IOError` with an errno (`2` is `ENOENT`, the file being absent). -/
inductive FileReadResult where
  | ok (contents : Str)
  | ioError (errno : Nat)
deriving DecidableEq, Repr

/-- `BinlogParser.read_position` (binlog.py lines 278-293): return the
file's contents right-stripped when that is nonempty; return `"0"` when it
is empty or when the file is absent (`IOError` with errno 2); re-raise any
other `IOError`. -/
def BinlogParser.read_position (r : FileReadResult) : Except PyErr Str :=
  match r with
  | FileReadResult.ok contents =>
      let ret := pyRstrip contents
      if ret ≠ [] then Except.ok ret else Except.ok "0".data
  | FileReadResult.ioError errno =>
      if errno ≠ 2 then Except.error (PyErr.ioError errno)
      else Except.ok "0".data

/-- Exceptions raised by a registered callback, modelled by their message. -/
abbrev Exc := Str

/-- Positional arguments of a callback invocation. -/
abbrev Args := List PyVal

/-- Keyword arguments of a callback invocation. -/
abbrev Kwargs := List (Str × PyVal)

/-- A registered callback: called with the table and the forwarded
positional and keyword arguments; may raise. -/
abbrev Handler := Str → Args → Kwargs → Except Exc Unit

/-- An error handler: called with the table, the action, the argument tuple
and the keyword dict.  Python invokes it inside the `except` block, so the
in-flight exception is implicit thread state; the embedding passes that
exception explicitly as a fifth argument. -/
abbrev ErrorHandler := Str → Str → Args → Kwargs → Exc → Except Exc Unit

/-- The state of a `MygrateCallbacks` registry: the nested dict of callbacks
and the installed error handler. -/
structure MygrateCallbacks where
  callbacks : List (Str × List (Str × Handler))
  error_handler : ErrorHandler

/-- `MygrateCallbacks._default_error_handler` (callbacks.py lines 34-35):
a bare `raise`, re-raising the in-flight exception. -/
def MygrateCallbacks.default_error_handler : ErrorHandler :=
  fun _ _ _ _ e => Except.error e

/-- Dict assignment for the per-table action dict. -/
def actSet (acts : List (Str × Handler)) (action : Str) (cb : Handler) :
    List (Str × Handler) :=
  match acts with
  | [] => [(action, cb)]
  | (a0, c0) :: rest =>
      if a0 = action then (action, cb) :: rest
      else (a0, c0) :: actSet rest action cb

/-- `MygrateCallbacks.register` (callbacks.py lines 55-65): `setdefault`
then assignment. -/
def MygrateCallbacks.register (r : MygrateCallbacks) (table action : Str)
    (callback : Handler) : MygrateCallbacks :=
  { r with callbacks :=
      match alistGet table r.callbacks with
      | none => r.callbacks ++ [(table, [(action, callback)])]
      | some acts =>
          r.callbacks.map (fun p =>
            if p.1 = table then (p.1, actSet acts action callback) else p) }

/-- A record of one call made during `execute`: either an invocation of the
registered callback (which receives the table and the forwarded arguments)
or of the error handler (which receives the table, the action, the argument
tuple and the keyword dict). -/
inductive CallRecord where
  | handlerCall (table : Str) (args : Args) (kwargs : Kwargs)
  | errorHandlerCall (table : Str) (action : Str) (args : Args)
      (kwargs : Kwargs)

/-- `MygrateCallbacks.execute` (callbacks.py lines 67-76): return immediately
when the table or the action has no binding; otherwise call the callback
and, when it raises, delegate to the installed error handler with the table,
action, argument tuple and keyword dict.  The first component records the
calls made, the second the overall result. -/
def MygrateCallbacks.execute (r : MygrateCallbacks) (table action : Str)
    (args : Args) (kwargs : Kwargs) : List CallRecord × Except Exc Unit :=
  match alistGet table r.callbacks with
  | none => ([], Except.ok ())
  | some acts =>
      match alistGet action acts with
      | none => ([], Except.ok ())
      | some callback =>
          match callback table args kwargs with
          | Except.ok _ =>
              ([CallRecord.handlerCall table args kwargs], Except.ok ())
          | Except.error e =>
              ([CallRecord.handlerCall table args kwargs,
                CallRecord.errorHandlerCall table action args kwargs],
               r.error_handler table action args kwargs e)

/-- The parsed INI configuration: `(section, key)` to value, modelling
`SafeConfigParser.get` (a missing pair raises, modelled as `none`). -/
abbrev ConfigData := List ((Str × Str) × Str)

/-- `self.parser.get(section, key)`. -/
def configGet (p : ConfigData) (sec key : Str) : Option Str :=
  match p with
  | [] => none
  | ((s0, k0), v) :: rest =>
      if s0 = sec ∧ k0 = key then some v else configGet rest sec key

/-- The filesystem facts the configuration getters consult: the home
directory for `~` expansion, and the directory / path existence predicates
(for `get_tracking_dir`, the state after the `os.makedirs` attempt, whose
errors are ignored). -/
structure Fs where
  home : Str
  isdir : Str → Bool
  pathExists : Str → Bool

/-- Python `os.path.expanduser`: replace a leading `~` with the home
directory (the `~user` form is outside the model). -/
def expanduser (fs : Fs) (s : Str) : Str :=
  match s with
  | '~' :: rest => fs.home ++ rest
  | _ => s

/-- `MygrateConfig.get_celery_info` (config.py lines 52-57): read
`broker_url` from section `celery`; a missing section or option is a
configuration error. -/
def MygrateConfig.get_celery_info (p : ConfigData) : Except PyErr Str :=
  match configGet p "celery".data "broker_url".data with
  | some broker_url => Except.ok broker_url
  | none => Except.error (PyErr.configError
      "Please specify the celery::broker_url configuration option.".data)

/-- `MygrateConfig.get_mysql_binlog_info` (config.py lines 84-95): read
`binlog_index` from section `mysql` with default
`/var/log/mysql/mysql-bin.index`, failing when the file does not exist;
read `tracking_delay` from section `binlog` with default `1.0`.  The
`float()` conversion of the delay is external and the delay is returned as
its configured text. -/
def MygrateConfig.get_mysql_binlog_info (fs : Fs) (p : ConfigData) :
    Except PyErr (Str × Str) :=
  let index_file :=
    match configGet p "mysql".data "binlog_index".data with
    | some f => f
    | none => "/var/log/mysql/mysql-bin.index".data
  if fs.pathExists index_file then
    let delay :=
      match configGet p "binlog".data "tracking_delay".data with
      | some d => d
      | none => "1.0".data
    Except.ok (index_file, delay)
  else Except.error (PyErr.configError
      ("Invalid binlog index file: ".data ++ index_file))

/-- `MygrateConfig.get_tracking_dir` (config.py lines 97-109): read
`tracking_dir` from section `binlog`; when absent, fall back to
`~/.binlog-tracking` expanded and attempt to create it (errors ignored, so
only the resulting `isdir` state matters).  The result is `expanduser`-ed
and must be a directory. -/
def MygrateConfig.get_tracking_dir (fs : Fs) (p : ConfigData) :
    Except PyErr Str :=
  let tracking_dir :=
    match configGet p "binlog".data "tracking_dir".data with
    | some d => d
    | none => expanduser fs "~/.binlog-tracking".data
  let tracking_dir := expanduser fs tracking_dir
  if fs.isdir tracking_dir then Except.ok tracking_dir
  else Except.error (PyErr.configError
      ("Tracking directory does not exist: ".data ++ tracking_dir))

/-- Which header branch of `QueryParser.parse` a line takes (binlog.py lines
174-188): the first matching `startswith` test among `INSERT`, `UPDATE`,
`DELETE`, or none. -/
def headerKind (line : Str) : Option QType :=
  if "INSERT".data.isPrefixOf line then some QType.INSERT
  else if "UPDATE".data.isPrefixOf line then some QType.UPDATE
  else if "DELETE".data.isPrefixOf line then some QType.DELETE
  else none

/-- The constructor used by each header branch of `QueryParser.parse`. -/
def QType.initQuery : QType → Str → QueryState
  | QType.INSERT => InsertQuery.init
  | QType.UPDATE => UpdateQuery.init
  | QType.DELETE => DeleteQuery.init

/-- Reasoning helper: the translation loop after aligning the column vector
with the running index (`translate_values cols i vals acc` walks
`cols.drop i` in lockstep with `vals`). -/
def transPairs : List Str → List PyVal → Dict → Except PyErr Dict
  | _, [], acc => Except.ok acc
  | [], _ :: _, _ => Except.error PyErr.indexError
  | k :: ks, v :: vs, acc => transPairs ks vs (dictSet acc k v)

/-- Test fixture: one registered table `db.t` with an empty column vector. -/
def envEmptyCols : ParserEnv :=
  ⟨["db.t".data], [("db.t".data, [])], []⟩

/-- Test fixture: one registered table `db.t` with column vector `[a, b]`. -/
def envTwoCols : ParserEnv :=
  ⟨["db.t".data], [("db.t".data, ["a".data, "b".data])], []⟩

/-- Test fixture: a configuration that uses the section names of the
specification's configuration table (`queue`, `tracker`, `database`) rather
than the ones the code reads. -/
def specSectionConfig : ConfigData :=
  [(("queue".data, "broker_url".data), "amqp://h".data),
   (("tracker".data, "tracking_dir".data), "/td".data),
   (("database".data, "binlog_index".data), "/bi".data)]

/-- Test fixture: a configuration that uses the section names the code
reads (`celery`, `binlog`, `mysql`). -/
def codeSectionConfig : ConfigData :=
  [(("celery".data, "broker_url".data), "amqp://h".data),
   (("binlog".data, "tracking_dir".data), "/td".data),
   (("mysql".data, "binlog_index".data), "/bi".data)]

/-- Test fixture: a filesystem on which every path exists and is a
directory. -/
def permissiveFs : Fs :=
  ⟨"/root".data, fun _ => true, fun _ => true⟩

/-- Test fixture: a handler that always raises `boom`. -/
def raisingHandler : Handler :=
  fun _ _ _ => Except.error "boom".data

/-- Test fixture: a registry binding `(db.t, INSERT)` to `raisingHandler`,
with the default error handler installed. -/
def raisingRegistry : MygrateCallbacks :=
  ⟨[("db.t".data, [("INSERT".data, raisingHandler)])],
   MygrateCallbacks.default_error_handler⟩

theorem pyPartition_sep_ne_nil {v : Str} {c : Char}
    (h : (pyPartition v c).2.1 = true) : v ≠ [] := by
  intro he
  subst he
  simp [pyPartition] at h

theorem pyPartition_before_sep (v : Str) (c : Char) :
    (pyPartition (pyPartition v c).1 c).2.1 = false := by
  induction v with
  | nil => rfl
  | cons a rest ih =>
      by_cases hac : a = c
      · simp [pyPartition, hac]
      · simp only [pyPartition, if_neg hac]
        simpa [pyPartition, hac] using ih

theorem parse_value_rec_stable {f1 f2 : Nat} {v : Str} {cs : Option Str}
    (h1 : f1 ≠ 0) (h2 : f2 ≠ 0)
    (hsep : (pyPartition v ' ').2.1 = false) :
    parse_value_rec f1 v cs = parse_value_rec f2 v cs := by
  cases f1 with
  | zero => exact absurd rfl h1
  | succ a =>
      cases f2 with
      | zero => exact absurd rfl h2
      | succ b =>
          simp only [parse_value_rec]
          cases h : literal_eval v <;> simp [h, hsep]

theorem parse_value_literal {v : Str} {cs : Option Str} {lit : PyVal}
    (h : literal_eval v = some lit) :
    QueryBase.parse_value v cs = applyCharset cs lit := by
  simp [QueryBase.parse_value, parse_value_rec, h]

theorem parse_value_no_sep {v : Str} {cs : Option Str}
    (h : literal_eval v = none) (hsep : (pyPartition v ' ').2.1 = false) :
    QueryBase.parse_value v cs = PyVal.vnone := by
  simp [QueryBase.parse_value, parse_value_rec, h, hsep]

theorem parse_value_recursion {v : Str} {cs : Option Str}
    (h : literal_eval v = none) (hsep : (pyPartition v ' ').2.1 = true) :
    QueryBase.parse_value v cs =
      QueryBase.parse_value (pyPartition v ' ').1 cs := by
  have hne : v ≠ [] := pyPartition_sep_ne_nil hsep
  have hlen : v.length ≠ 0 := by
    simpa [List.length_eq_zero] using hne
  have hstep : QueryBase.parse_value v cs =
      parse_value_rec v.length (pyPartition v ' ').1 cs := by
    simp [QueryBase.parse_value, parse_value_rec, h, hsep]
  rw [hstep]
  exact parse_value_rec_stable hlen (Nat.succ_ne_zero _)
    (pyPartition_before_sep v ' ')

theorem alistGet_dictSet (d : Dict) (k k' : Str) (v : PyVal) :
    alistGet k' (dictSet d k v) = if k' = k then some v else alistGet k' d := by
  induction d with
  | nil =>
      by_cases h : k' = k
      · simp [dictSet, alistGet, h]
      · simp [dictSet, alistGet, h, Ne.symm h]
  | cons hd tl ih =>
      obtain ⟨k0, v0⟩ := hd
      by_cases h0 : k0 = k
      · subst h0
        by_cases h : k' = k0
        · simp [dictSet, alistGet, h]
        · simp [dictSet, alistGet, h, Ne.symm h]
      · by_cases h : k0 = k'
        · subst h
          simp [dictSet, alistGet, h0, Ne.symm h0]
        · simp [dictSet, alistGet, h0, h, ih]

theorem hasKey_dictSet (d : Dict) (k k' : Str) (v : PyVal) :
    hasKey (dictSet d k v) k' = true ↔ k' = k ∨ hasKey d k' = true := by
  by_cases h : k' = k <;> simp [hasKey, alistGet_dictSet, h]

theorem transPairs_err : ∀ (vs : List PyVal) (ks : List Str) (acc : Dict),
    ks.length < vs.length → transPairs ks vs acc = Except.error PyErr.indexError
  | [], _, _, h => absurd h (Nat.not_lt_zero _)
  | _ :: _, [], _, _ => rfl
  | v :: vs', k :: ks', acc, h =>
      transPairs_err vs' ks' (dictSet acc k v) (Nat.lt_of_succ_lt_succ h)

theorem transPairs_nil_vals (ks : List Str) (acc : Dict) :
    transPairs ks [] acc = Except.ok acc := by
  cases ks <;> rfl

theorem transPairs_ok : ∀ (vs : List PyVal) (ks : List Str) (acc : Dict),
    vs.length ≤ ks.length →
    ∃ d, transPairs ks vs acc = Except.ok d ∧
      ∀ k, hasKey d k = true ↔ hasKey acc k = true ∨ k ∈ ks.take vs.length := by
  intro vs
  induction vs with
  | nil =>
      intro ks acc _
      exact ⟨acc, transPairs_nil_vals ks acc, by simp⟩
  | cons v vs' ih =>
      intro ks acc h
      cases ks with
      | nil => simp at h
      | cons k0 ks' =>
          obtain ⟨d, hd, hk⟩ := ih ks' (dictSet acc k0 v)
            (Nat.le_of_succ_le_succ h)
          refine ⟨d, hd, fun k => ?_⟩
          rw [hk k, hasKey_dictSet]
          simp only [List.length_cons, List.take_succ_cons, List.mem_cons]
          tauto

theorem getElem?_eq_head_drop : ∀ (l : List Str) (i : Nat),
    l[i]? = (l.drop i).head?
  | [], i => by simp
  | a :: l, 0 => by simp
  | a :: l, i + 1 => by simpa using getElem?_eq_head_drop l i

theorem drop_succ_eq_tail_drop : ∀ (l : List Str) (i : Nat),
    l.drop (i + 1) = (l.drop i).tail
  | [], i => by simp
  | a :: l, 0 => by simp
  | a :: l, i + 1 => by simpa using drop_succ_eq_tail_drop l i

theorem translate_eq_transPairs :
    ∀ (vs : List PyVal) (cols : List Str) (i : Nat) (acc : Dict),
    translate_values cols i vs acc = transPairs (cols.drop i) vs acc := by
  intro vs
  induction vs with
  | nil =>
      intro cols i acc
      rw [transPairs_nil_vals]
      rfl
  | cons v vs' ih =>
      intro cols i acc
      have heq : translate_values cols i (v :: vs') acc =
          match cols[i]? with
          | none => Except.error PyErr.indexError
          | some key => translate_values cols (i + 1) vs' (dictSet acc key v) :=
        rfl
      rw [heq, getElem?_eq_head_drop]
      cases hd : cols.drop i with
      | nil => rfl
      | cons k0 ks' =>
          simp only [List.head?]
          rw [ih, drop_succ_eq_tail_drop, hd]
          rfl

theorem process_lines_inv : ∀ (stream : List (Bool × Str)) (env : ParserEnv)
    (s : ParserState),
    ((BinlogParser.process_lines env s stream).finishCalls =
      if (BinlogParser.process_lines env s stream).reachedEOS = true
      then 1 else 0) ∧
    ((BinlogParser.process_lines env s stream).reachedEOS = true →
      (BinlogParser.process_lines env s stream).sawShutdown = false) := by
  intro stream
  induction stream with
  | nil =>
      intro env s
      cases hq : QueryParser.finish env s <;>
        simp [BinlogParser.process_lines, hq]
  | cons hd tl ih =>
      intro env s
      obtain ⟨done, line⟩ := hd
      cases done with
      | true => simp [BinlogParser.process_lines]
      | false =>
          cases h1 : "### ".data.isPrefixOf line with
          | true =>
              cases hp : QueryParser.parse env s (rstripCRLF (line.drop 4)) with
              | ok p =>
                  obtain ⟨s2, evs⟩ := p
                  simpa [BinlogParser.process_lines, h1, hp] using ih env s2
              | error e =>
                  simp [BinlogParser.process_lines, h1, hp]
          | false =>
              cases h2 : "# at ".data.isPrefixOf line with
              | true =>
                  simpa [BinlogParser.process_lines, h1, h2] using ih env s
              | false =>
                  simpa [BinlogParser.process_lines, h1, h2] using ih env s

theorem column_match_ne_keywords {line : Str} {x : Str × Str}
    (hm : QueryBase.column_pattern_match line = some x) :
    ¬ line = "SET".data ∧ ¬ line = "WHERE".data := by
  constructor
  · intro he
    rw [he] at hm
    have hn : QueryBase.column_pattern_match "SET".data = none := by decide
    rw [hn] at hm
    exact Option.noConfusion hm
  · intro he
    rw [he] at hm
    have hn : QueryBase.column_pattern_match "WHERE".data = none := by decide
    rw [hn] at hm
    exact Option.noConfusion hm

theorem parse_column_line (cs : CharSets) (q : QueryState) {line ds v : Str}
    {ph : Phase} (hm : QueryBase.column_pattern_match line = some (ds, v))
    (hph : q.current_value_type = some ph) :
    QueryBase.parse cs q line =
      Except.ok (q.appendValue ph
        (QueryBase.parse_value v (charSetsGet cs q.table))) := by
  obtain ⟨hS, hW⟩ := column_match_ne_keywords hm
  simp only [QueryBase.parse, if_neg hS, if_neg hW, hm, hph]

theorem parse_column_line_no_phase (cs : CharSets) (q : QueryState)
    {line ds v : Str}
    (hm : QueryBase.column_pattern_match line = some (ds, v))
    (hph : q.current_value_type = none) :
    QueryBase.parse cs q line = Except.error PyErr.keyError := by
  obtain ⟨hS, hW⟩ := column_match_ne_keywords hm
  simp only [QueryBase.parse, if_neg hS, if_neg hW, hm, hph]

theorem init_current_value_type (ty : QType) (cap : Option Str) :
    (QueryBase.init ty cap).current_value_type = none := by
  cases cap <;> rfl

theorem appendValue_invalid (q : QueryState) (ph : Phase) (v : PyVal) :
    (q.appendValue ph v).invalid = q.invalid := by
  cases ph <;> rfl

/-- Claim C1 (code bug).  The claim says an event marked invalid by a
malformed line is dropped on transition out of `InEvent`, with no emission
and no translation.  The code sets the `invalid` flag (binlog.py line 79)
but never reads it: `_handle_completion` calls `finish()` unconditionally.
Here the malformed line `x` marks the tracked insert invalid, yet `finish()`
still translates and emits the event. -/
theorem invalid_event_still_emitted :
    (QueryBase.parse envEmptyCols.char_sets
        (InsertQuery.init "INSERT INTO `db`.`t`".data) "x".data).map
        QueryState.invalid = Except.ok true ∧
    QueryParser.run envEmptyCols ["INSERT INTO `db`.`t`".data, "x".data] =
      Except.ok [Event.INSERT "db.t".data []] := by decide

/-- Claim C2 (counterexample).  A tracked insert on table `db.t` with column
vector `[a, b]` is fed a single `SET` value.  The positional list length (1)
differs from the vector length (2), yet the event is emitted — not dropped —
and its column map lacks the key `b`, so the key set is not equal to the
column-name vector. -/
theorem key_set_mismatch_emitted :
    QueryParser.run envTwoCols
        ["INSERT INTO `db`.`t`".data, "SET".data, "  @1=1".data] =
      Except.ok [Event.INSERT "db.t".data [("a".data, PyVal.vint 1)]] ∧
    hasKey [("a".data, PyVal.vint 1)] "b".data = false ∧
    "b".data ∈ (["a".data, "b".data] : List Str) ∧
    alistGet "db.t".data envTwoCols.column_names =
      some ["a".data, "b".data] := by decide

/-- Claim C2 (amended).  For a query on a table with column vector `cols`:
a positional list longer than `cols` makes translation raise `IndexError`
(the event is not emitted; the exception is logged and aborts the journal's
sweep); a list no longer than `cols` is emitted with a column map whose key
set is exactly the first `length`-many column names — equal to the whole
vector only when the lengths match. -/
theorem translated_key_sets (cn : ColumnNames) (q : QueryState) (t : Str)
    (cols : List Str) (ht : q.table = some t)
    (hc : alistGet t cn = some cols) :
    (cols.length < q.setVals.length →
      InsertQuery.finish cn q = Except.error PyErr.indexError) ∧
    (q.setVals.length ≤ cols.length →
      ∃ d, InsertQuery.finish cn q = Except.ok (Event.INSERT t d) ∧
        ∀ k, hasKey d k = true ↔ k ∈ cols.take q.setVals.length) ∧
    (cols.length < q.whereVals.length →
      UpdateQuery.finish cn q = Except.error PyErr.indexError) ∧
    (q.whereVals.length ≤ cols.length → q.setVals.length ≤ cols.length →
      ∃ dw ds, UpdateQuery.finish cn q = Except.ok (Event.UPDATE t dw ds) ∧
        (∀ k, hasKey dw k = true ↔ k ∈ cols.take q.whereVals.length) ∧
        (∀ k, hasKey ds k = true ↔ k ∈ cols.take q.setVals.length)) := by
  have hg : columnNamesGet cn q.table = Except.ok (t, cols) := by
    rw [ht]
    simp [columnNamesGet, hc]
  have htr : ∀ vs : List PyVal,
      translate_values cols 0 vs [] = transPairs cols vs [] := by
    intro vs
    rw [translate_eq_transPairs]
    simp
  refine ⟨?_, ?_, ?_, ?_⟩
  · intro hlt
    simp only [InsertQuery.finish, hg, htr, transPairs_err _ _ _ hlt]
  · intro hle
    obtain ⟨d, hd, hk⟩ := transPairs_ok q.setVals cols [] hle
    refine ⟨d, ?_, fun k => ?_⟩
    · simp only [InsertQuery.finish, hg, htr, hd]
    · rw [hk k]
      simp [hasKey, alistGet]
  · intro hlt
    simp only [UpdateQuery.finish, hg, htr, transPairs_err _ _ _ hlt]
  · intro hlw hls
    obtain ⟨dw, hdw, hkw⟩ := transPairs_ok q.whereVals cols [] hlw
    obtain ⟨ds, hds, hks⟩ := transPairs_ok q.setVals cols [] hls
    refine ⟨dw, ds, ?_, fun k => ?_, fun k => ?_⟩
    · simp only [UpdateQuery.finish, hg, htr, hdw, hds]
    · rw [hkw k]
      simp [hasKey, alistGet]
    · rw [hks k]
      simp [hasKey, alistGet]

/-- Witness for `translated_key_sets` at a concrete input: a two-value `SET`
list on a two-column vector is emitted with key set equal to the vector. -/
theorem translated_key_sets_witness :
    ∃ d, InsertQuery.finish [("db.t".data, ["a".data, "b".data])]
        ⟨QType.INSERT, some "db.t".data, false, some Phase.SET, [],
          [PyVal.vint 1, PyVal.vint 2]⟩ =
        Except.ok (Event.INSERT "db.t".data d) ∧
      ∀ k, hasKey d k = true ↔
        k ∈ (["a".data, "b".data] : List Str).take 2 :=
  (translated_key_sets [("db.t".data, ["a".data, "b".data])]
    ⟨QType.INSERT, some "db.t".data, false, some Phase.SET, [],
      [PyVal.vint 1, PyVal.vint 2]⟩
    "db.t".data ["a".data, "b".data] (by decide) (by decide)).2.1 (by decide)

/-- Claim C3 (counterexample).  Column lines with indices `@5` then `@2` —
neither 1-based nor increasing — leave the event valid (`invalid = false`)
and simply append both values in fed order. -/
theorem out_of_order_index_accepted :
    QueryParser.feedList envTwoCols ⟨none⟩
        ["INSERT INTO `db`.`t`".data, "SET".data, "  @5=1".data,
          "  @2=2".data] =
      Except.ok (⟨some ⟨QType.INSERT, some "db.t".data, false,
        some Phase.SET, [], [PyVal.vint 1, PyVal.vint 2]⟩⟩, []) := by decide

/-- Claim C3 (amended).  The digit capture of a column line is ignored: any
line matching `^  @(\d+)=(.*)$` appends the decoded value to the current
phase's positional list, with a result independent of the index digits, and
the `invalid` flag is unchanged — no 1-based or monotonicity check exists. -/
theorem column_index_ignored (cs : CharSets) (q : QueryState)
    (line ds v : Str) (ph : Phase)
    (hm : QueryBase.column_pattern_match line = some (ds, v))
    (hph : q.current_value_type = some ph) :
    QueryBase.parse cs q line =
      Except.ok (q.appendValue ph
        (QueryBase.parse_value v (charSetsGet cs q.table))) ∧
    (q.appendValue ph
      (QueryBase.parse_value v (charSetsGet cs q.table))).invalid =
      q.invalid :=
  ⟨parse_column_line cs q hm hph, appendValue_invalid q ph _⟩

/-- Witness for `column_index_ignored` at a concrete input. -/
theorem column_index_ignored_witness :
    QueryBase.parse []
        ⟨QType.INSERT, some "db.t".data, false, some Phase.SET, [], []⟩
        "  @7=3".data =
      Except.ok (QueryState.appendValue
        ⟨QType.INSERT, some "db.t".data, false, some Phase.SET, [], []⟩
        Phase.SET (QueryBase.parse_value "3".data
          (charSetsGet [] (some "db.t".data)))) ∧
    (QueryState.appendValue
        ⟨QType.INSERT, some "db.t".data, false, some Phase.SET, [], []⟩
        Phase.SET (QueryBase.parse_value "3".data
          (charSetsGet [] (some "db.t".data)))).invalid = false :=
  column_index_ignored []
    ⟨QType.INSERT, some "db.t".data, false, some Phase.SET, [], []⟩
    "  @7=3".data "7".data "3".data Phase.SET (by decide) (by decide)

/-- Claim C4 (counterexample).  After an `INSERT INTO` header the phase is
`None` (not `Set`), after a `DELETE FROM` header the phase is `None` (not
`Where`), and a column line fed immediately after the header of a registered
table raises `KeyError` instead of appending the value. -/
theorem header_phase_counterexample :
    (InsertQuery.init "INSERT INTO `db`.`t`".data).current_value_type =
      none ∧
    (DeleteQuery.init "DELETE FROM `db`.`t`".data).current_value_type =
      none ∧
    QueryParser.feedList envTwoCols ⟨none⟩
        ["INSERT INTO `db`.`t`".data, "  @1=5".data] =
      Except.error PyErr.keyError := by decide

/-- Claim C4 (amended).  A header line leaves `current_value_type` unset for
all three query classes; a phase is only entered by an explicit `SET` or
`WHERE` line, and a column line fed while the phase is unset raises
`KeyError` (`values[None]`), aborting the journal's sweep. -/
theorem header_leaves_phase_unset (line : Str) (cs : CharSets)
    (q : QueryState) (line2 ds v : Str)
    (hph : q.current_value_type = none)
    (hm : QueryBase.column_pattern_match line2 = some (ds, v)) :
    (InsertQuery.init line).current_value_type = none ∧
    (UpdateQuery.init line).current_value_type = none ∧
    (DeleteQuery.init line).current_value_type = none ∧
    QueryBase.parse cs q line2 = Except.error PyErr.keyError :=
  ⟨init_current_value_type _ _, init_current_value_type _ _,
    init_current_value_type _ _, parse_column_line_no_phase cs q hm hph⟩

/-- Witness for `header_leaves_phase_unset` at a concrete input. -/
theorem header_leaves_phase_unset_witness :
    (InsertQuery.init "INSERT INTO `db`.`t`".data).current_value_type =
      none ∧
    (UpdateQuery.init "INSERT INTO `db`.`t`".data).current_value_type =
      none ∧
    (DeleteQuery.init "INSERT INTO `db`.`t`".data).current_value_type =
      none ∧
    QueryBase.parse []
        ⟨QType.INSERT, some "db.t".data, false, none, [], []⟩
        "  @1=5".data = Except.error PyErr.keyError :=
  header_leaves_phase_unset "INSERT INTO `db`.`t`".data []
    ⟨QType.INSERT, some "db.t".data, false, none, [], []⟩
    "  @1=5".data "1".data "5".data (by decide) (by decide)

/-- Claim C5 (counterexample).  A configuration using the specification
table's section names (`queue`, `tracker`, `database`) is not read: the
broker lookup raises a configuration error, and the tracking directory and
binlog index fall back to their defaults instead of the configured values. -/
theorem config_spec_sections_ignored :
    MygrateConfig.get_celery_info specSectionConfig =
      Except.error (PyErr.configError
        "Please specify the celery::broker_url configuration option.".data) ∧
    MygrateConfig.get_tracking_dir permissiveFs specSectionConfig =
      Except.ok "/root/.binlog-tracking".data ∧
    MygrateConfig.get_mysql_binlog_info permissiveFs specSectionConfig =
      Except.ok ("/var/log/mysql/mysql-bin.index".data, "1.0".data) ∧
    ("/td".data : Str) ≠ "/root/.binlog-tracking".data ∧
    ("/bi".data : Str) ≠ "/var/log/mysql/mysql-bin.index".data := by decide

/-- Claim C5 (amended).  The broker endpoint is read from key `broker_url`
of section `celery`, the tracking directory from key `tracking_dir` of
section `binlog`, and the journal index path from key `binlog_index` of
section `mysql`. -/
theorem config_code_sections (p : ConfigData) (fs : Fs) (v d f : Str)
    (h1 : configGet p "celery".data "broker_url".data = some v)
    (h2 : configGet p "binlog".data "tracking_dir".data = some d)
    (h3 : fs.isdir (expanduser fs d) = true)
    (h4 : configGet p "mysql".data "binlog_index".data = some f)
    (h5 : fs.pathExists f = true) :
    MygrateConfig.get_celery_info p = Except.ok v ∧
    MygrateConfig.get_tracking_dir fs p = Except.ok (expanduser fs d) ∧
    (MygrateConfig.get_mysql_binlog_info fs p).map Prod.fst =
      Except.ok f := by
  refine ⟨?_, ?_, ?_⟩
  · simp [MygrateConfig.get_celery_info, h1]
  · simp [MygrateConfig.get_tracking_dir, h2, h3]
  · simp [MygrateConfig.get_mysql_binlog_info, h4, h5, Except.map]

/-- Witness for `config_code_sections` at a concrete configuration using the
code's section names. -/
theorem config_code_sections_witness :
    MygrateConfig.get_celery_info codeSectionConfig =
      Except.ok "amqp://h".data ∧
    MygrateConfig.get_tracking_dir permissiveFs codeSectionConfig =
      Except.ok (expanduser permissiveFs "/td".data) ∧
    (MygrateConfig.get_mysql_binlog_info permissiveFs
      codeSectionConfig).map Prod.fst = Except.ok "/bi".data :=
  config_code_sections codeSectionConfig permissiveFs "amqp://h".data
    "/td".data "/bi".data (by decide) (by decide) (by decide) (by decide)
    (by decide)

/-- Claim C6 (confirmed).  Value decoding: a successful literal decode is
returned through the charset step (bytes with a nonempty charset are decoded
to text); on failure with a space in the token, the prefix of the first
space is decoded recursively; on failure without a space — in particular
when the prefix itself fails — the result is the null value; and the token
`1234 /* INT meta */` decodes to the integer 1234. -/
theorem parse_value_contract (v b csv : Str) (cs : Option Str)
    (lit : PyVal) :
    (literal_eval v = some lit →
      QueryBase.parse_value v cs = applyCharset cs lit) ∧
    (literal_eval v = some (PyVal.vbytes b) → csv.isEmpty = false →
      QueryBase.parse_value v (some csv) = pyDecode csv b) ∧
    (literal_eval v = none → (pyPartition v ' ').2.1 = true →
      QueryBase.parse_value v cs =
        QueryBase.parse_value (pyPartition v ' ').1 cs) ∧
    (literal_eval v = none → (pyPartition v ' ').2.1 = false →
      QueryBase.parse_value v cs = PyVal.vnone) ∧
    (literal_eval v = none → literal_eval (pyPartition v ' ').1 = none →
      QueryBase.parse_value v cs = PyVal.vnone) ∧
    QueryBase.parse_value "1234 /* INT meta */".data none =
      PyVal.vint 1234 := by
  refine ⟨?_, ?_, ?_, ?_, ?_, by decide⟩
  · exact parse_value_literal
  · intro hl hcs
    rw [parse_value_literal hl]
    simp [applyCharset, charSetTruthy, hcs]
  · exact parse_value_recursion
  · exact parse_value_no_sep
  · intro hl hp
    cases hsep : (pyPartition v ' ').2.1 with
    | true =>
        rw [parse_value_recursion hl hsep]
        exact parse_value_no_sep hp (pyPartition_before_sep v ' ')
    | false => exact parse_value_no_sep hl hsep

/-- Witness for `parse_value_contract`: a token whose prefix also fails to
decode yields the null value. -/
theorem parse_value_contract_witness :
    QueryBase.parse_value "abc def".data none = PyVal.vnone :=
  (parse_value_contract "abc def".data [] [] none
    PyVal.vnone).2.2.2.2.1 (by decide) (by decide)

/-- Claim C7 (confirmed).  During the streaming of one journal's line
sequence: when the shutdown flag is observed, `finish()` is not called; when
end of stream is reached cleanly (every line consumed, no exception escaping
the loop body), `finish()` is called exactly once; and `finish()` is called
exactly once if and only if the stream ended cleanly without the shutdown
flag having been observed. -/
theorem finish_iff_clean_eos (env : ParserEnv) (s : ParserState)
    (stream : List (Bool × Str)) :
    ((BinlogParser.process_lines env s stream).sawShutdown = true →
      (BinlogParser.process_lines env s stream).finishCalls = 0) ∧
    ((BinlogParser.process_lines env s stream).reachedEOS = true →
      (BinlogParser.process_lines env s stream).finishCalls = 1) ∧
    ((BinlogParser.process_lines env s stream).finishCalls = 1 ↔
      ((BinlogParser.process_lines env s stream).reachedEOS = true ∧
        (BinlogParser.process_lines env s stream).sawShutdown = false)) := by
  obtain ⟨h1, h2⟩ := process_lines_inv stream env s
  refine ⟨?_, ?_, ?_, ?_⟩
  · intro hs
    cases he : (BinlogParser.process_lines env s stream).reachedEOS with
    | false => rw [h1, he]; rfl
    | true => rw [h2 he] at hs; exact Bool.noConfusion hs
  · intro he
    rw [h1, he]
    rfl
  · intro hf
    cases he : (BinlogParser.process_lines env s stream).reachedEOS with
    | false => rw [h1, he] at hf; exact absurd hf one_ne_zero.symm
    | true => exact ⟨rfl, h2 he⟩
  · rintro ⟨he, _⟩
    rw [h1, he]
    rfl

/-- Witness for `finish_iff_clean_eos`: with the shutdown flag set at the
first read line, `finish()` is not called. -/
theorem finish_iff_clean_eos_witness :
    (BinlogParser.process_lines envTwoCols ⟨none⟩
      [(true, "### SET".data)]).finishCalls = 0 :=
  (finish_iff_clean_eos envTwoCols ⟨none⟩ [(true, "### SET".data)]).1
    (by decide)

/-- Claim C8 (counterexample).  For an existing cursor file whose contents
are only whitespace, the trimmed contents are empty, yet `read_position`
returns `"0"` rather than the trimmed contents. -/
theorem read_position_empty_file :
    BinlogParser.read_position (FileReadResult.ok "  ".data) =
      Except.ok "0".data ∧
    pyRstrip "  ".data = [] ∧
    ("0".data : Str) ≠ [] := by decide

/-- Claim C8 (amended).  `read_position` returns the file's contents trimmed
of trailing whitespace when the trimmed contents are nonempty; returns `"0"`
when the file is absent (`IOError` with errno 2) or when the trimmed
contents are empty; and re-raises any `IOError` whose errno is not 2. -/
theorem read_position_contract (contents : Str) (e : Nat) :
    (pyRstrip contents ≠ [] →
      BinlogParser.read_position (FileReadResult.ok contents) =
        Except.ok (pyRstrip contents)) ∧
    (pyRstrip contents = [] →
      BinlogParser.read_position (FileReadResult.ok contents) =
        Except.ok "0".data) ∧
    (BinlogParser.read_position (FileReadResult.ioError 2) =
      Except.ok "0".data) ∧
    (e ≠ 2 →
      BinlogParser.read_position (FileReadResult.ioError e) =
        Except.error (PyErr.ioError e)) := by
  refine ⟨?_, ?_, by decide, ?_⟩
  · intro h
    simp [BinlogParser.read_position, h]
  · intro h
    simp [BinlogParser.read_position, h]
  · intro h
    simp [BinlogParser.read_position, h]

/-- Witness for `read_position_contract` at concrete inputs: a file with
trailing newline is trimmed, and errno 13 is re-raised. -/
theorem read_position_contract_witness :
    (BinlogParser.read_position (FileReadResult.ok " 42\n".data) =
      Except.ok " 42".data) ∧
    (BinlogParser.read_position (FileReadResult.ioError 13) =
      Except.error (PyErr.ioError 13)) :=
  ⟨(read_position_contract " 42\n".data 13).1 (by decide),
   (read_position_contract " 42\n".data 13).2.2.2 (by decide)⟩

/-- Claim C9 (confirmed).  `execute(table, action, …)` is a no-op returning
without side effect (no call made, success) when the table or the action has
no binding; otherwise it invokes the bound handler with the table and the
forwarded arguments, and when the handler raises it delegates to the
installed error handler with exactly the four arguments `(table, action,
args, kwargs)` (plus, explicitly in this embedding, the in-flight
exception); the default error handler re-raises that exception. -/
theorem execute_contract (r : MygrateCallbacks) (table action : Str)
    (args : Args) (kwargs : Kwargs) (acts : List (Str × Handler))
    (cb : Handler) (e : Exc) :
    (alistGet table r.callbacks = none →
      MygrateCallbacks.execute r table action args kwargs =
        ([], Except.ok ())) ∧
    (alistGet table r.callbacks = some acts →
      alistGet action acts = none →
      MygrateCallbacks.execute r table action args kwargs =
        ([], Except.ok ())) ∧
    (alistGet table r.callbacks = some acts →
      alistGet action acts = some cb →
      cb table args kwargs = Except.ok () →
      MygrateCallbacks.execute r table action args kwargs =
        ([CallRecord.handlerCall table args kwargs], Except.ok ())) ∧
    (alistGet table r.callbacks = some acts →
      alistGet action acts = some cb →
      cb table args kwargs = Except.error e →
      MygrateCallbacks.execute r table action args kwargs =
        ([CallRecord.handlerCall table args kwargs,
          CallRecord.errorHandlerCall table action args kwargs],
          r.error_handler table action args kwargs e)) ∧
    MygrateCallbacks.default_error_handler table action args kwargs e =
      Except.error e := by
  refine ⟨?_, ?_, ?_, ?_, rfl⟩
  · intro h
    simp [MygrateCallbacks.execute, h]
  · intro h h2
    simp [MygrateCallbacks.execute, h, h2]
  · intro h h2 h3
    simp [MygrateCallbacks.execute, h, h2, h3]
  · intro h h2 h3
    simp [MygrateCallbacks.execute, h, h2, h3]

/-- Witness for `execute_contract`: the registered raising handler makes
`execute` call the handler, then the error handler with `(table, action,
args, kwargs)`; the default error handler re-raises, so the exception
escapes. -/
theorem execute_contract_witness :
    MygrateCallbacks.execute raisingRegistry "db.t".data "INSERT".data
        [] [] =
      ([CallRecord.handlerCall "db.t".data [] [],
        CallRecord.errorHandlerCall "db.t".data "INSERT".data [] []],
        Except.error "boom".data) :=
  (execute_contract raisingRegistry "db.t".data "INSERT".data [] []
      [("INSERT".data, raisingHandler)] raisingHandler
      "boom".data).2.2.2.1 rfl rfl rfl

/-- Claim C10 (confirmed).  Any line that merely starts with `INSERT`,
`UPDATE` or `DELETE` — whether or not it matches the anchored header
pattern — first completes and emits the in-progress event (errors from that
completion propagate) and then starts a new query.  When the line does not
match the anchored pattern, the new query has no table (`hm`), so it is not
tracked: the resulting state holds no current query.  While no query is
current, any line with none of the three header prefixes is ignored. -/
theorem header_prefix_resets (env : ParserEnv) (s : ParserState)
    (line l2 : Str) (k : QType)
    (hk : headerKind line = some k)
    (hm : (QType.initQuery k line).table = none)
    (hn : headerKind l2 = none) :
    QueryParser.parse env s line =
      Except.map (fun evs => (ParserState.mk none, evs))
        (QueryParser.handle_completion env s) ∧
    QueryParser.parse env ⟨none⟩ l2 = Except.ok (⟨none⟩, []) := by
  constructor
  · cases hI : "INSERT".data.isPrefixOf line with
    | true =>
        have hkv : some QType.INSERT = some k := by
          rw [← hk]
          simp [headerKind, hI]
        injection hkv with hkv
        subst hkv
        have hm' : (InsertQuery.init line).table = none := hm
        cases hc : QueryParser.handle_completion env s <;>
          simp [QueryParser.parse, hI, hc, Except.map, hm', tableTracked]
    | false =>
        cases hU : "UPDATE".data.isPrefixOf line with
        | true =>
            have hkv : some QType.UPDATE = some k := by
              rw [← hk]
              simp [headerKind, hI, hU]
            injection hkv with hkv
            subst hkv
            have hm' : (UpdateQuery.init line).table = none := hm
            cases hc : QueryParser.handle_completion env s <;>
              simp [QueryParser.parse, hI, hU, hc, Except.map, hm',
                tableTracked]
        | false =>
            cases hD : "DELETE".data.isPrefixOf line with
            | true =>
                have hkv : some QType.DELETE = some k := by
                  rw [← hk]
                  simp [headerKind, hI, hU, hD]
                injection hkv with hkv
                subst hkv
                have hm' : (DeleteQuery.init line).table = none := hm
                cases hc : QueryParser.handle_completion env s <;>
                  simp [QueryParser.parse, hI, hU, hD, hc, Except.map, hm',
                    tableTracked]
            | false => simp [headerKind, hI, hU, hD] at hk
  · cases hI : "INSERT".data.isPrefixOf l2 with
    | true => simp [headerKind, hI] at hn
    | false =>
        cases hU : "UPDATE".data.isPrefixOf l2 with
        | true => simp [headerKind, hI, hU] at hn
        | false =>
            cases hD : "DELETE".data.isPrefixOf l2 with
            | true => simp [headerKind, hI, hU, hD] at hn
            | false => simp [QueryParser.parse, hI, hU, hD]

/-- Witness for `header_prefix_resets`: the line `INSERT IGNORE INTO x`
starts with `INSERT` but does not match `^INSERT INTO (.*)$`; fed while a
tracked insert on `db.t` with one translated `SET` value is in progress, it
emits that event and leaves no current query, and the following column line
is then ignored. -/
theorem header_prefix_resets_witness :
    QueryParser.parse envTwoCols
        ⟨some ⟨QType.INSERT, some "db.t".data, false, some Phase.SET, [],
          [PyVal.vint 1]⟩⟩ "INSERT IGNORE INTO x".data =
      Except.map (fun evs => (ParserState.mk none, evs))
        (QueryParser.handle_completion envTwoCols
          ⟨some ⟨QType.INSERT, some "db.t".data, false, some Phase.SET, [],
            [PyVal.vint 1]⟩⟩) ∧
    QueryParser.parse envTwoCols ⟨none⟩ "  @1=1".data =
      Except.ok (⟨none⟩, []) :=
  header_prefix_resets envTwoCols
    ⟨some ⟨QType.INSERT, some "db.t".data, false, some Phase.SET, [],
      [PyVal.vint 1]⟩⟩ "INSERT IGNORE INTO x".data "  @1=1".data
    QType.INSERT (by decide) (by decide) (by decide)
